import Mathlib

/-!
Shallow embedding of `src/app.py` (a small Flask + SQLite marketplace for
"sprite" image listings).  The database tables `users` and `sprites` are
modelled as Lean lists kept in insertion (rowid) order, the per-request
session is an `Option Nat` holding the logged-in user id, and every route
handler becomes an explicit state-passing function.  External collaborators
(werkzeug password hashing and filename sanitisation, Python's `int()`,
SQLite's `LIKE` operator) are modelled as pure Lean functions that follow
their documented behaviour.
-/

namespace SpriteShop

/-- A row of the `users` table (app.py lines 46-54):
id, username (UNIQUE), password (digest), balance (default 100),
avatar (default placeholder), created_at. -/
structure User where
  id : Nat
  username : String
  password : String
  balance : Int
  avatar : String
  created_at : Nat
deriving DecidableEq

/-- A row of the `sprites` table (app.py lines 55-66). -/
structure Sprite where
  id : Nat
  name : String
  price : Int
  short_description : String
  long_description : String
  image_path : String
  seller_id : Nat
  created_at : Nat
deriving DecidableEq

/-- The SQLite database: both tables in rowid (insertion) order plus the
AUTOINCREMENT counters for the surrogate keys. -/
structure DB where
  users : List User
  sprites : List Sprite
  nextUserId : Nat
  nextSpriteId : Nat
deriving DecidableEq

/-- Server-side state: the database plus the names of the files written to
`UPLOAD_FOLDER`, in write order. -/
structure ServerState where
  db : DB
  uploads : List String
deriving DecidableEq

/-- The outcome a handler hands back to the HTTP layer: either a redirect to
an endpoint (`url_for` target) or a rendered template. -/
inductive Response where
  | redirect (endpoint : String)
  | render (template : String)
deriving DecidableEq

/-- A handler result: the flashed messages (message, category) in order,
and the response. -/
structure HResult where
  flashes : List (String × String)
  response : Response
deriving DecidableEq

/-- One row of the home-page query `SELECT sprites.*, users.username ...`
(app.py lines 92-98). -/
structure SpriteRow where
  sprite : Sprite
  username : String
deriving DecidableEq

/-- One row of the detail query `SELECT s.*, u.username, u.avatar ...`
(app.py lines 246-251). -/
structure DetailRow where
  sprite : Sprite
  username : String
  avatar : String
deriving DecidableEq

/-- Model of `werkzeug.security.generate_password_hash`: a collision-free
one-way digest, modelled as tagging the password. -/
def generate_password_hash (password : String) : String :=
  "pbkdf2:" ++ password

/-- Model of `werkzeug.security.check_password_hash`: the digest matches
exactly the candidates whose hash it is. -/
def check_password_hash (digest candidate : String) : Bool :=
  digest == generate_password_hash candidate

/-- `app.config['ALLOWED_EXTENSIONS']` (app.py line 18). -/
def ALLOWED_EXTENSIONS : List String := ["png", "jpg", "jpeg", "webp", "gif"]

/-- ASCII lower-casing of one character, as both Python's `str.lower` and
SQLite's `LIKE` apply it to the ASCII range. -/
def asciiLower (c : Char) : Char :=
  if 'A' ≤ c ∧ c ≤ 'Z' then Char.ofNat (c.toNat + 32) else c

/-- The characters after the last `'.'`, i.e. Python's
`filename.rsplit('.', 1)[1]` when a dot is present. -/
def extAfterLastDot (filename : String) : List Char :=
  ((filename.toList.reverse.takeWhile (fun c => c ≠ '.'))).reverse

/-- `allowed_file` (app.py lines 24-26): the name contains a dot and the
lower-cased extension after the last dot is in the allow-list. -/
def allowed_file (filename : String) : Bool :=
  filename.toList.contains '.' &&
    ALLOWED_EXTENSIONS.contains (String.mk ((extAfterLastDot filename).map asciiLower))

/-- Model of `werkzeug.utils.secure_filename`: keeps ASCII alphanumerics,
dot, dash and underscore and drops every other character (in particular the
path separators), yielding a safe basename. -/
def secure_filename (s : String) : String :=
  String.mk (s.toList.filter (fun c => c.isAlphanum || c = '.' || c = '-' || c = '_'))

/-- ASCII decimal digit test for the `int()` model. -/
def isPyDigit (c : Char) : Bool := '0' ≤ c && c ≤ '9'

/-- Whitespace stripped by Python's `int()` around the literal. -/
def isPySpace (c : Char) : Bool := c = ' ' || c = '\t' || c = '\n' || c = '\r'

/-- Strip leading and trailing whitespace. -/
def pyStrip (cs : List Char) : List Char :=
  ((cs.dropWhile isPySpace).reverse.dropWhile isPySpace).reverse

/-- Numeric value of a digit string. -/
def digitsVal (cs : List Char) : Nat :=
  cs.foldl (fun n c => 10 * n + (c.toNat - '0'.toNat)) 0

/-- Model of Python's `int(str)`: optional surrounding whitespace, optional
sign, then one or more decimal digits; anything else raises `ValueError`
(modelled as `none`).  Digit-group underscores are not modelled. -/
def pyInt (s : String) : Option Int :=
  let cs := pyStrip s.toList
  let signDigits : Int × List Char :=
    match cs with
    | '+' :: rest => (1, rest)
    | '-' :: rest => (-1, rest)
    | _ => (1, cs)
  if signDigits.2 ≠ [] ∧ signDigits.2.all isPyDigit then
    some (signDigits.1 * (digitsVal signDigits.2 : Int))
  else
    none

/-- Model of SQLite's `LIKE` operator (default, no ESCAPE clause):
`'%'` matches any sequence of characters, `'_'` matches any single
character, every other pattern character matches one text character
case-insensitively on the ASCII range. -/
def likeMatch : List Char → List Char → Bool
  | [], s => s.isEmpty
  | p :: ps, s =>
    if p = '%' then
      s.tails.any (fun s' => likeMatch ps s')
    else
      match s with
      | [] => false
      | c :: s' => (if p = '_' then true else asciiLower p = asciiLower c) && likeMatch ps s'

/-- The pattern `'%' + search + '%'` built by `home` (app.py line 98). -/
def likePattern (term : String) : List Char :=
  '%' :: (term.toList ++ ['%'])

/-- Stable insertion step of the descending sort on `created_at`: the new
row goes in front of the first row whose timestamp is not larger. -/
def insertByCreated (x : SpriteRow) : List SpriteRow → List SpriteRow
  | [] => [x]
  | y :: ys =>
    if y.sprite.created_at ≤ x.sprite.created_at then x :: y :: ys
    else y :: insertByCreated x ys

/-- `ORDER BY created_at DESC` (app.py line 97) as a stable descending
insertion sort on the joined rows (SQLite scans `sprites` in rowid order, so
rows with equal timestamps stay in insertion order). -/
def sortByCreatedDesc : List SpriteRow → List SpriteRow
  | [] => []
  | x :: xs => insertByCreated x (sortByCreatedDesc xs)

/-- The inner join `sprites JOIN users ON sprites.seller_id = users.id` in
rowid order of `sprites`: a sprite contributes a row exactly when its seller
exists. -/
def joinRows (db : DB) : List SpriteRow :=
  db.sprites.filterMap (fun sp =>
    (db.users.find? (fun u => u.id == sp.seller_id)).map
      (fun u => ⟨sp, u.username⟩))

/-- The rows produced by the home-page query (app.py lines 92-98) for a
given search term: join, filter by `name LIKE '%term%'`, order by
`created_at` descending. -/
def searchRows (db : DB) (term : String) : List SpriteRow :=
  sortByCreatedDesc ((joinRows db).filter
    (fun r => likeMatch (likePattern term) r.sprite.name.toList))

/-- Well-formedness of a stored database state: unique surrogate keys,
unique usernames (the UNIQUE constraint), referential integrity of
`seller_id`, and keys below the AUTOINCREMENT counters. -/
def DB.wf (db : DB) : Prop :=
  (db.users.map User.id).Nodup ∧
  (db.users.map User.username).Nodup ∧
  (db.sprites.map Sprite.id).Nodup ∧
  (∀ sp ∈ db.sprites, ∃ u ∈ db.users, u.id = sp.seller_id) ∧
  (∀ u ∈ db.users, u.id < db.nextUserId) ∧
  (∀ sp ∈ db.sprites, sp.id < db.nextSpriteId)

instance (db : DB) : Decidable db.wf := by
  unfold DB.wf
  infer_instance

/-! ## Route handlers -/

/-- `home` (app.py lines 85-100): a read-only query of the current state;
renders `index.html` with the matching rows. -/
def home (term : String) (st : ServerState) : List SpriteRow × ServerState :=
  (searchRows st.db term, st)

/-- `register`, POST branch (app.py lines 104-137): reject passwords
shorter than 6 characters with a redirect back to the form; a duplicate
username makes the INSERT fail with `IntegrityError` (flash, re-render the
form); otherwise insert the user and redirect to login. -/
def register (username password : String) (now : Nat) (st : ServerState) :
    HResult × ServerState :=
  if password.length < 6 then
    (⟨[("Пароль должен быть не менее 6 символов", "error")], .redirect "register"⟩, st)
  else if st.db.users.any (fun u => u.username == username) then
    (⟨[("Это имя пользователя уже занято", "error")], .render "register.html"⟩, st)
  else
    let u : User :=
      ⟨st.db.nextUserId, username, generate_password_hash password, 100,
        "default-avatar.png", now⟩
    (⟨[("Регистрация успешна! Войдите в систему", "success")], .redirect "login"⟩,
      ⟨⟨st.db.users ++ [u], st.db.sprites, st.db.nextUserId + 1, st.db.nextSpriteId⟩,
        st.uploads⟩)

/-- `login`, POST branch (app.py lines 140-170): fetch the first user row
with the submitted username; on a password-hash match record the id in the
session and redirect home, otherwise flash an error and re-render the
form leaving the session as it was. -/
def login (username password : String) (sess : Option Nat) (st : ServerState) :
    HResult × Option Nat × ServerState :=
  match st.db.users.find? (fun u => u.username == username) with
  | some u =>
    if check_password_hash u.password password then
      (⟨[], .redirect "home"⟩, some u.id, st)
    else
      (⟨[("Неверные учетные данные", "error")], .render "login.html"⟩, sess, st)
  | none =>
    (⟨[("Неверные учетные данные", "error")], .render "login.html"⟩, sess, st)

/-- `logout` (app.py lines 173-179): drop `user_id` from the session. -/
def logout (_sess : Option Nat) (st : ServerState) :
    HResult × Option Nat × ServerState :=
  (⟨[], .redirect "home"⟩, none, st)

/-- The fields of the `add_item` form as submitted: `price` is the raw text
and `image` is the filename of the uploaded file, `""` when no file was
chosen (an empty `FileStorage` is falsy). -/
structure ItemForm where
  name : String
  price : String
  short_description : String
  long_description : String
  image : String
deriving DecidableEq

/-- `add_item`, POST branch (app.py lines 189-235): redirect to login when
no principal is in the session; parse the price with `int()` — a
`ValueError` is caught before any file or database write and re-renders the
form with an error flash (its text abstracted as the exception name);
otherwise accept the upload only if the file is truthy and `allowed_file`
holds, then insert the sprite row and redirect to the profile. -/
def add_item (sess : Option Nat) (form : ItemForm) (now : Nat)
    (st : ServerState) : HResult × ServerState :=
  match sess with
  | none => (⟨[], .redirect "login"⟩, st)
  | some uid =>
    match pyInt form.price with
    | none => (⟨[("Ошибка: ValueError", "error")], .render "add_item.html"⟩, st)
    | some price =>
      let accepted := (form.image != "") && allowed_file form.image
      let filename := if accepted then secure_filename form.image else "default-sprite.png"
      let uploads := if accepted then st.uploads ++ [filename] else st.uploads
      let sp : Sprite :=
        ⟨st.db.nextSpriteId, form.name, price, form.short_description,
          form.long_description, filename, uid, now⟩
      (⟨[("Товар успешно добавлен!", "success")], .redirect "profile"⟩,
        ⟨⟨st.db.users, st.db.sprites ++ [sp], st.db.nextUserId, st.db.nextSpriteId + 1⟩,
          uploads⟩)

/-- `sprite_detail` (app.py lines 238-253): the first row of the join of
the sprite with the given id against its seller; `none` renders an empty
page. -/
def sprite_detail (sprite_id : Nat) (st : ServerState) : Option DetailRow :=
  (st.db.sprites.find? (fun sp => sp.id == sprite_id)).bind (fun sp =>
    (st.db.users.find? (fun u => u.id == sp.seller_id)).map
      (fun u => ⟨sp, u.username, u.avatar⟩))

/-- `delete` (app.py lines 256-286): redirect to login when no principal is
in the session; otherwise `DELETE FROM sprites WHERE id = ? AND
seller_id = ?` with the session's user id, flash success and redirect to
the profile (the row count is not inspected). -/
def delete (sess : Option Nat) (sprite_id : Nat) (st : ServerState) :
    HResult × ServerState :=
  match sess with
  | none => (⟨[], .redirect "login"⟩, st)
  | some uid =>
    (⟨[("Товар удален", "success")], .redirect "profile"⟩,
      ⟨⟨st.db.users,
          st.db.sprites.filter (fun sp => !(sp.id == sprite_id && sp.seller_id == uid)),
          st.db.nextUserId, st.db.nextSpriteId⟩,
        st.uploads⟩)

/-- What the `profile` route produces. -/
inductive ProfileView where
  | loginRedirect
  | page (user : Option User) (sprites : List Sprite)
deriving DecidableEq

/-- `profile` (app.py lines 289-314): redirect to login when no principal
is in the session; otherwise a read-only view of the user row and the
user's sprites. -/
def profile (sess : Option Nat) (st : ServerState) : ProfileView × ServerState :=
  match sess with
  | none => (.loginRedirect, st)
  | some uid =>
    (.page (st.db.users.find? (fun u => u.id == uid))
      (st.db.sprites.filter (fun sp => sp.seller_id == uid)), st)

/-! ## Spec-side definitions -/

/-- Case-insensitive (ASCII) equality of `t` with a leading segment of
`s`. -/
def ciStartsWith : List Char → List Char → Bool
  | [], _ => true
  | _ :: _, [] => false
  | a :: as, b :: bs => (asciiLower a = asciiLower b) && ciStartsWith as bs

/-- `t` occurs contiguously in `s` up to ASCII case. -/
def ciOccurs : List Char → List Char → Bool
  | t, [] => t.isEmpty
  | t, c :: s' => ciStartsWith t (c :: s') || ciOccurs t s'

/-- The spec's phrase "contains the term as a case-insensitive substring",
written out independently of the `LIKE` model for comparison with it. -/
def specContainsCI (term name : String) : Bool :=
  ciOccurs term.toList name.toList

/-! ## Concrete states used to exercise the theorems -/

/-- A registered user `alice` (scenario 1 of the spec). -/
def uAlice : User :=
  ⟨1, "alice", generate_password_hash "secret1", 100, "default-avatar.png", 10⟩

/-- A second registered user `bob`. -/
def uBob : User :=
  ⟨2, "bob", generate_password_hash "hunter22", 100, "default-avatar.png", 11⟩

/-- A listing owned by `alice`. -/
def spHero : Sprite :=
  ⟨1, "Hero", 50, "hero sprite", "a pixel hero", "default-sprite.png", 1, 12⟩

/-- A small stored state: two users, one listing. -/
def st0 : ServerState := ⟨⟨[uAlice, uBob], [spHero], 3, 2⟩, []⟩

/-! ## Helper lemmas -/

lemma find?_all_false {α : Type} (p : α → Bool) (l : List α)
    (h : ∀ x ∈ l, p x = false) : l.find? p = none := by
  induction l with
  | nil => rfl
  | cons a as ih =>
    rw [List.find?_cons_of_neg _ (by simp [h a (List.mem_cons_self a as)])]
    exact ih (fun x hx => h x (List.mem_cons_of_mem a hx))

lemma find?_append_right {α : Type} (p : α → Bool) (l l' : List α)
    (h : ∀ x ∈ l, p x = false) : (l ++ l').find? p = l'.find? p := by
  induction l with
  | nil => rfl
  | cons a as ih =>
    rw [List.cons_append,
      List.find?_cons_of_neg _ (by simp [h a (List.mem_cons_self a as)])]
    exact ih (fun x hx => h x (List.mem_cons_of_mem a hx))

lemma find?_key_self {α β : Type} [BEq β] [LawfulBEq β] (f : α → β)
    (l : List α) (hnd : (l.map f).Nodup) (x : α) (hx : x ∈ l) :
    l.find? (fun y => f y == f x) = some x := by
  induction l with
  | nil => cases hx
  | cons a as ih =>
    rw [List.map_cons, List.nodup_cons] at hnd
    rcases List.mem_cons.mp hx with rfl | hx'
    · exact List.find?_cons_of_pos _ (by simp)
    · have hne : (f a == f x) = false := by
        apply beq_eq_false_iff_ne.mpr
        intro hEq
        exact hnd.1 (hEq ▸ List.mem_map_of_mem f hx')
      rw [List.find?_cons_of_neg _ (by simp [hne])]
      exact ih hnd.2 hx'

lemma filter_all_true {α : Type} (p : α → Bool) (l : List α)
    (h : ∀ x ∈ l, p x = true) : l.filter p = l := by
  induction l with
  | nil => rfl
  | cons a as ih =>
    rw [List.filter_cons_of_pos (h a (List.mem_cons_self a as))]
    rw [ih (fun x hx => h x (List.mem_cons_of_mem a hx))]

lemma filter_all_false {α : Type} (p : α → Bool) (l : List α)
    (h : ∀ x ∈ l, p x = false) : l.filter p = [] := by
  induction l with
  | nil => rfl
  | cons a as ih =>
    rw [List.filter_cons_of_neg (by simp [h a (List.mem_cons_self a as)])]
    exact ih (fun x hx => h x (List.mem_cons_of_mem a hx))

/-! ## Claims -/

/-- C7: every protected operation (`add_item`, `delete`, `profile`) in a
session with no recorded principal performs no database or file write,
leaves the state unchanged, and answers with a redirect to the login flow;
no error is raised (the handlers are total). -/
theorem C7_protected_routes_redirect (form : ItemForm) (now sid : Nat)
    (st : ServerState) :
    add_item none form now st = (⟨[], .redirect "login"⟩, st) ∧
    delete none sid st = (⟨[], .redirect "login"⟩, st) ∧
    profile none st = (.loginRedirect, st) :=
  ⟨rfl, rfl, rfl⟩

/-- C9: `search` is a deterministic read-only function of the stored state:
`home` leaves the state unchanged and two invocations with no intervening
writes return the same ordered rows. -/
theorem C9_search_idempotent (term : String) (st : ServerState) :
    (home term st).2 = st ∧
    (home term ((home term st).2)).1 = (home term st).1 :=
  ⟨rfl, rfl⟩

/-- C6: a registration whose password has fewer than 6 characters is
rejected before any storage write: the whole state is unchanged (so the
stored count of every username is unchanged) and the caller is redirected
back to the registration form with a validation flash. -/
theorem C6_short_password (username password : String) (now : Nat)
    (st : ServerState) (h : password.length < 6) :
    register username password now st =
      (⟨[("Пароль должен быть не менее 6 символов", "error")], .redirect "register"⟩, st) ∧
    ∀ U : String,
      ((register username password now st).2.db.users.filter
          (fun u => u.username == U)).length =
        (st.db.users.filter (fun u => u.username == U)).length := by
  have hreg : register username password now st =
      (⟨[("Пароль должен быть не менее 6 символов", "error")], .redirect "register"⟩, st) := by
    unfold register
    rw [if_pos h]
  exact ⟨hreg, fun U => by rw [hreg]⟩

/-- C6 witness: a concrete short-password registration against `st0`. -/
theorem C6_short_password_witness :
    ("12345" : String).length < 6 ∧
    register "zoe" "12345" 20 st0 =
      (⟨[("Пароль должен быть не менее 6 символов", "error")], .redirect "register"⟩, st0) :=
  ⟨by decide, (C6_short_password "zoe" "12345" 20 st0 (by decide)).1⟩

/-- C10: an authenticated `add_item` request whose price field does not
parse as an integer creates no listing row and writes no file (the state is
unchanged), and the handler re-renders the form with an error flash instead
of the success redirect. -/
theorem C10_unparsable_price (uid : Nat) (form : ItemForm) (now : Nat)
    (st : ServerState) (h : pyInt form.price = none) :
    add_item (some uid) form now st =
      (⟨[("Ошибка: ValueError", "error")], .render "add_item.html"⟩, st) := by
  unfold add_item
  rw [h]

/-- C10 witness: a concrete non-numeric price. -/
theorem C10_unparsable_price_witness :
    pyInt "fifty" = none ∧
    add_item (some 1) ⟨"Hero", "fifty", "s", "l", ""⟩ 13 st0 =
      (⟨[("Ошибка: ValueError", "error")], .render "add_item.html"⟩, st0) :=
  ⟨by decide, C10_unparsable_price 1 ⟨"Hero", "fifty", "s", "l", ""⟩ 13 st0 (by decide)⟩

/-- C3: when the submitted file's name fails `allowed_file` (no extension,
or an extension outside the case-insensitive allow-list), no upload is
stored and the created listing's `image_path` is the default placeholder
`default-sprite.png`. -/
theorem C3_disallowed_upload_uses_default (uid : Nat) (form : ItemForm)
    (now : Nat) (st : ServerState) (price : Int)
    (hp : pyInt form.price = some price)
    (hf : allowed_file form.image = false) :
    (add_item (some uid) form now st).2.uploads = st.uploads ∧
    (add_item (some uid) form now st).2.db.sprites =
      st.db.sprites ++
        [⟨st.db.nextSpriteId, form.name, price, form.short_description,
          form.long_description, "default-sprite.png", uid, now⟩] := by
  unfold add_item
  rw [hp]
  simp [hf]

/-- C3 witness: uploading `art.exe` (scenario 3 of the spec). -/
theorem C3_disallowed_upload_uses_default_witness :
    pyInt "50" = some 50 ∧ allowed_file "art.exe" = false ∧
    (add_item (some 1) ⟨"Hero2", "50", "s", "l", "art.exe"⟩ 14 st0).2.uploads = st0.uploads ∧
    (add_item (some 1) ⟨"Hero2", "50", "s", "l", "art.exe"⟩ 14 st0).2.db.sprites =
      st0.db.sprites ++ [⟨2, "Hero2", 50, "s", "l", "default-sprite.png", 1, 14⟩] :=
  ⟨by decide, by decide,
    C3_disallowed_upload_uses_default 1 ⟨"Hero2", "50", "s", "l", "art.exe"⟩ 14 st0 50
      (by decide) (by decide)⟩

/-- C1: deleting a listing through a session belonging to a different user
is a no-op: the state is unchanged (so the listing count is unchanged) and
the listing is still stored with its original seller; in general a `delete`
removes a row exactly when both the listing id and the seller id match. -/
theorem C1_delete_requires_ownership (st : ServerState) (L : Sprite) (A B : Nat)
    (hwf : st.db.wf) (hL : L ∈ st.db.sprites) (hA : L.seller_id = A)
    (hB : ∃ u ∈ st.db.users, u.id = B) (hne : B ≠ A) :
    (delete (some B) L.id st).2 = st ∧
    (delete (some B) L.id st).2.db.sprites.length = st.db.sprites.length ∧
    L ∈ (delete (some B) L.id st).2.db.sprites ∧
    (∀ sid uid : Nat, ∀ r ∈ st.db.sprites,
      (r ∉ (delete (some uid) sid st).2.db.sprites ↔
        (r.id = sid ∧ r.seller_id = uid))) := by
  obtain ⟨hndU, hndName, hndS, href, hltU, hltS⟩ := hwf
  have hkeep : ∀ sp ∈ st.db.sprites,
      (!(sp.id == L.id && sp.seller_id == B)) = true := by
    intro sp hsp
    by_cases hid : sp.id = L.id
    · have hspL : sp = L := List.inj_on_of_nodup_map hndS hsp hL hid
      subst hspL
      simp [hA]
      omega
    · simp [hid]
  have hfilter :
      st.db.sprites.filter (fun sp => !(sp.id == L.id && sp.seller_id == B)) =
        st.db.sprites := filter_all_true _ _ hkeep
  have hstate : (delete (some B) L.id st).2 = st := by
    show (⟨⟨st.db.users, _, st.db.nextUserId, st.db.nextSpriteId⟩,
      st.uploads⟩ : ServerState) = st
    rw [hfilter]
  refine ⟨hstate, by rw [hstate], by rw [hstate]; exact hL, ?_⟩
  intro sid uid r hr
  simp [delete, List.mem_filter, hr]

/-- C1 witness: `bob` (id 2) tries to delete `alice`'s listing in `st0`. -/
theorem C1_delete_requires_ownership_witness :
    st0.db.wf ∧ spHero ∈ st0.db.sprites ∧ spHero.seller_id = 1 ∧
    uBob ∈ st0.db.users ∧ uBob.id = 2 ∧ (2 : Nat) ≠ 1 ∧
    (delete (some 2) spHero.id st0).2 = st0 :=
  ⟨by decide, by decide, by decide, by decide, by decide, by decide,
    (C1_delete_requires_ownership st0 spHero 1 2 (by decide) (by decide)
      (by decide) (by decide) (by decide)).1⟩

/-- C2: with a fresh username `U` and passwords of length at least 6, the
first registration succeeds (redirect to login, one stored account with
username `U`, user count up by one) and a second registration of `U` fails
the insert with the duplicate-username condition, leaving the state — in
particular the single stored account and the total user count —
unchanged. -/
theorem C2_duplicate_username (U pw1 pw2 : String) (t1 t2 : Nat)
    (st : ServerState)
    (h1 : 6 ≤ pw1.length) (h2 : 6 ≤ pw2.length)
    (hU : ∀ u ∈ st.db.users, u.username ≠ U) :
    (register U pw1 t1 st).1.response = .redirect "login" ∧
    ((register U pw1 t1 st).2.db.users.filter
        (fun u => u.username == U)).length = 1 ∧
    (register U pw1 t1 st).2.db.users.length = st.db.users.length + 1 ∧
    (register U pw2 t2 ((register U pw1 t1 st).2)).1 =
      ⟨[("Это имя пользователя уже занято", "error")], .render "register.html"⟩ ∧
    (register U pw2 t2 ((register U pw1 t1 st).2)).2 =
      (register U pw1 t1 st).2 := by
  have hany : st.db.users.any (fun u => u.username == U) = false := by
    rw [List.any_eq_false]
    intro u hu
    simp [hU u hu]
  have hr1 : register U pw1 t1 st =
      (⟨[("Регистрация успешна! Войдите в систему", "success")], .redirect "login"⟩,
        ⟨⟨st.db.users ++
            [⟨st.db.nextUserId, U, generate_password_hash pw1, 100,
              "default-avatar.png", t1⟩],
          st.db.sprites, st.db.nextUserId + 1, st.db.nextSpriteId⟩,
          st.uploads⟩) := by
    unfold register
    rw [if_neg (by omega), if_neg (by simp [hany])]
  have hfilter0 : st.db.users.filter (fun u => u.username == U) = [] :=
    filter_all_false _ _ (fun u hu => by simp [hU u hu])
  have hany2 : ((register U pw1 t1 st).2.db.users.any
      (fun u => u.username == U)) = true := by
    rw [hr1]
    simp
  have hr2 : register U pw2 t2 ((register U pw1 t1 st).2) =
      (⟨[("Это имя пользователя уже занято", "error")], .render "register.html"⟩,
        (register U pw1 t1 st).2) := by
    conv_lhs => rw [register.eq_def]
    rw [if_neg (by omega), if_pos hany2]
  refine ⟨by rw [hr1], ?_, by rw [hr1]; simp, by rw [hr2], by rw [hr2]⟩
  rw [hr1]
  simp only [List.filter_append, hfilter0]
  simp

/-- C2 witness: registering `zoe` twice against `st0`. -/
theorem C2_duplicate_username_witness :
    6 ≤ ("zephyr" : String).length ∧ 6 ≤ ("zephyr2" : String).length ∧
    (register "zoe" "zephyr" 20 st0).1.response = .redirect "login" ∧
    ((register "zoe" "zephyr" 20 st0).2.db.users.filter
        (fun u => u.username == "zoe")).length = 1 ∧
    (register "zoe" "zephyr2" 21 ((register "zoe" "zephyr" 20 st0).2)).1 =
      ⟨[("Это имя пользователя уже занято", "error")], .render "register.html"⟩ :=
  ⟨by decide, by decide,
    (C2_duplicate_username "zoe" "zephyr" "zephyr2" 20 21 st0 (by decide)
      (by decide) (by decide)).1,
    (C2_duplicate_username "zoe" "zephyr" "zephyr2" 20 21 st0 (by decide)
      (by decide) (by decide)).2.1,
    (C2_duplicate_username "zoe" "zephyr" "zephyr2" 20 21 st0 (by decide)
      (by decide) (by decide)).2.2.2.1⟩

/-- C5: a listing created by an authenticated principal with no image
upload round-trips through `sprite_detail`: the stored row keeps the
submitted name, parsed price and descriptions, its `seller_id` is the
principal's id, its `image_path` is the default placeholder, and the detail
join reports the principal's username and avatar. -/
theorem C5_round_trip (uid : Nat) (u : User) (form : ItemForm) (now : Nat)
    (st : ServerState) (price : Int)
    (hwf : st.db.wf) (hu : u ∈ st.db.users) (hid : u.id = uid)
    (hp : pyInt form.price = some price) (himg : form.image = "") :
    sprite_detail st.db.nextSpriteId ((add_item (some uid) form now st).2) =
      some ⟨⟨st.db.nextSpriteId, form.name, price, form.short_description,
        form.long_description, "default-sprite.png", uid, now⟩,
        u.username, u.avatar⟩ := by
  obtain ⟨hndU, hndName, hndS, href, hltU, hltS⟩ := hwf
  have hadd : (add_item (some uid) form now st).2 =
      ⟨⟨st.db.users,
        st.db.sprites ++
          [⟨st.db.nextSpriteId, form.name, price, form.short_description,
            form.long_description, "default-sprite.png", uid, now⟩],
        st.db.nextUserId, st.db.nextSpriteId + 1⟩, st.uploads⟩ := by
    unfold add_item
    rw [hp]
    simp [himg]
  rw [hadd]
  unfold sprite_detail
  have h1 : (st.db.sprites ++
      ([⟨st.db.nextSpriteId, form.name, price, form.short_description,
        form.long_description, "default-sprite.png", uid, now⟩] :
          List Sprite)).find?
      (fun sp => sp.id == st.db.nextSpriteId) =
      some ⟨st.db.nextSpriteId, form.name, price, form.short_description,
        form.long_description, "default-sprite.png", uid, now⟩ := by
    rw [find?_append_right]
    · simp
    · intro x hx
      have hlt := hltS x hx
      simp
      omega
  have h2 : st.db.users.find? (fun y => y.id == uid) = some u := by
    have hfind := find?_key_self User.id st.db.users hndU u hu
    rw [hid] at hfind
    exact hfind
  dsimp only
  rw [h1]
  simp [h2]

/-- C5 witness: `alice` (id 1) creates a listing with no upload in `st0`
and fetches it. -/
theorem C5_round_trip_witness :
    st0.db.wf ∧ uAlice ∈ st0.db.users ∧ uAlice.id = 1 ∧
    pyInt "50" = some 50 ∧
    sprite_detail st0.db.nextSpriteId
        ((add_item (some 1) ⟨"Hero2", "50", "s", "l", ""⟩ 14 st0).2) =
      some ⟨⟨2, "Hero2", 50, "s", "l", "default-sprite.png", 1, 14⟩,
        "alice", "default-avatar.png"⟩ :=
  ⟨by decide, by decide, by decide, by decide,
    C5_round_trip 1 uAlice ⟨"Hero2", "50", "s", "l", ""⟩ 14 st0 50 (by decide)
      (by decide) (by decide) (by decide) (by decide)⟩

/-- C8: a login attempt records a principal in the session exactly when a
user with the submitted username exists and the password verifies against
its stored digest, and then the recorded identifier is that user's id; on
failure the session is unchanged; the stored state is never changed; and
logout clears the recorded identifier. -/
theorem C8_login_records_principal (U P : String) (sess : Option Nat)
    (st : ServerState) (hwf : st.db.wf) :
    (∀ u ∈ st.db.users, u.username = U →
      (login U P sess st).2.1 =
        (if check_password_hash u.password P then some u.id else sess)) ∧
    ((∀ u ∈ st.db.users, u.username ≠ U) → (login U P sess st).2.1 = sess) ∧
    (login U P sess st).2.2 = st ∧
    (logout sess st).2.1 = none := by
  obtain ⟨hndU, hndName, hndS, href, hltU, hltS⟩ := hwf
  refine ⟨?_, ?_, ?_, rfl⟩
  · intro u hu huU
    have hfind : st.db.users.find? (fun y => y.username == U) = some u := by
      have h := find?_key_self User.username st.db.users hndName u hu
      rw [huU] at h
      exact h
    unfold login
    rw [hfind]
    dsimp only
    by_cases hc : check_password_hash u.password P
    · simp [hc]
    · simp [hc]
  · intro hnone
    have hfind : st.db.users.find? (fun y => y.username == U) = none :=
      find?_all_false _ _ (fun u hu => by simp [hnone u hu])
    unfold login
    rw [hfind]
  · unfold login
    rcases hf : st.db.users.find? (fun y => y.username == U) with _ | u
    · rw [hf]
    · rw [hf]
      dsimp only
      by_cases hc : check_password_hash u.password P
      · simp [hc]
      · simp [hc]

/-- C8 witness: `alice` logs in with the right password in `st0`. -/
theorem C8_login_records_principal_witness :
    st0.db.wf ∧ uAlice ∈ st0.db.users ∧ uAlice.username = "alice" ∧
    (login "alice" "secret1" none st0).2.1 =
      (if check_password_hash uAlice.password "secret1" then some uAlice.id
        else none) :=
  ⟨by decide, by decide, by decide,
    (C8_login_records_principal "alice" "secret1" none st0 (by decide)).1
      uAlice (by decide) (by decide)⟩

/-! ## Characterisation of `LIKE '%term%'` for wildcard-free terms -/

lemma likeMatch_pct_iff (ps s : List Char) :
    likeMatch ('%' :: ps) s = true ↔
      ∃ s1 s2, s = s1 ++ s2 ∧ likeMatch ps s2 = true := by
  have hdef : likeMatch ('%' :: ps) s = s.tails.any (fun s' => likeMatch ps s') := by
    simp [likeMatch]
  rw [hdef, List.any_eq_true]
  constructor
  · rintro ⟨s', hs', hm⟩
    rw [List.mem_tails] at hs'
    obtain ⟨s1, hs1⟩ := hs'
    exact ⟨s1, s', hs1.symm, hm⟩
  · rintro ⟨s1, s2, rfl, hm⟩
    exact ⟨s2, (List.mem_tails _ _).mpr ⟨s1, rfl⟩, hm⟩

lemma likeMatch_pct_end (s : List Char) : likeMatch ['%'] s = true :=
  (likeMatch_pct_iff [] s).mpr ⟨s, [], by simp, rfl⟩

lemma likeMatch_cons_nil (c : Char) (hc : c ≠ '%') (ps : List Char) :
    likeMatch (c :: ps) [] = false := by
  simp [likeMatch, hc]

lemma likeMatch_cons_cons (c : Char) (hc : c ≠ '%') (hcu : c ≠ '_')
    (ps : List Char) (d : Char) (s' : List Char) :
    likeMatch (c :: ps) (d :: s') =
      (decide (asciiLower c = asciiLower d) && likeMatch ps s') := by
  simp [likeMatch, hc, hcu]

lemma likeMatch_lit_iff (t : List Char) (ht : ∀ c ∈ t, c ≠ '%' ∧ c ≠ '_')
    (ps : List Char) : ∀ s : List Char,
    (likeMatch (t ++ ps) s = true ↔
      ∃ s1 s2, s = s1 ++ s2 ∧ s1.map asciiLower = t.map asciiLower ∧
        likeMatch ps s2 = true) := by
  induction t with
  | nil =>
    intro s
    constructor
    · intro h
      exact ⟨[], s, rfl, rfl, h⟩
    · rintro ⟨s1, s2, rfl, h1, h2⟩
      cases s1 with
      | nil => exact h2
      | cons a as => simp at h1
  | cons c t' ih =>
    have hc := ht c (List.mem_cons_self c t')
    have ht' : ∀ x ∈ t', x ≠ '%' ∧ x ≠ '_' :=
      fun x hx => ht x (List.mem_cons_of_mem c hx)
    intro s
    cases s with
    | nil =>
      rw [List.cons_append, likeMatch_cons_nil c hc.1]
      constructor
      · intro h
        cases h
      · rintro ⟨s1, s2, hnil, hmap, _⟩
        rcases List.append_eq_nil.mp hnil.symm with ⟨rfl, rfl⟩
        simp at hmap
    | cons d s' =>
      rw [List.cons_append, likeMatch_cons_cons c hc.1 hc.2]
      constructor
      · intro h
        rw [Bool.and_eq_true] at h
        rcases h with ⟨hEq, hrest⟩
        obtain ⟨s1, s2, rfl, hmap, hps⟩ := (ih ht' s').mp hrest
        exact ⟨d :: s1, s2, rfl,
          by rw [List.map_cons, List.map_cons, hmap, of_decide_eq_true hEq], hps⟩
      · rintro ⟨s1, s2, hsplit, hmap, hps⟩
        cases s1 with
        | nil => simp at hmap
        | cons a as =>
          rw [List.cons_append] at hsplit
          injection hsplit with hd hrest
          rw [List.map_cons, List.map_cons] at hmap
          injection hmap with hm1 hm2
          rw [Bool.and_eq_true]
          constructor
          · exact decide_eq_true (by rw [hd]; exact hm1.symm)
          · exact (ih ht' s').mpr ⟨as, s2, hrest, hm2, hps⟩

lemma bool_eq_of_true_iff {a b : Bool} (h : a = true ↔ b = true) : a = b := by
  cases a <;> cases b <;> simp_all

lemma ciStartsWith_iff (t : List Char) : ∀ s : List Char,
    (ciStartsWith t s = true ↔
      ∃ a b, s = a ++ b ∧ a.map asciiLower = t.map asciiLower) := by
  induction t with
  | nil =>
    intro s
    constructor
    · intro _
      exact ⟨[], s, rfl, rfl⟩
    · intro _
      rfl
  | cons c t' ih =>
    intro s
    cases s with
    | nil =>
      constructor
      · intro h
        cases h
      · rintro ⟨a, b, hnil, hmap⟩
        rcases List.append_eq_nil.mp hnil.symm with ⟨rfl, rfl⟩
        simp at hmap
    | cons d s' =>
      constructor
      · intro h
        rw [show ciStartsWith (c :: t') (d :: s') =
            (decide (asciiLower c = asciiLower d) && ciStartsWith t' s') from rfl,
          Bool.and_eq_true] at h
        rcases h with ⟨hEq, h'⟩
        obtain ⟨a, b, rfl, hmap⟩ := (ih s').mp h'
        exact ⟨d :: a, b, rfl,
          by rw [List.map_cons, List.map_cons, hmap, of_decide_eq_true hEq]⟩
      · rintro ⟨a, b, hsplit, hmap⟩
        cases a with
        | nil => simp at hmap
        | cons x xs =>
          rw [List.cons_append] at hsplit
          injection hsplit with hd hrest
          rw [List.map_cons, List.map_cons] at hmap
          injection hmap with hm1 hm2
          show (decide (asciiLower c = asciiLower d) && ciStartsWith t' s') = true
          rw [Bool.and_eq_true]
          exact ⟨decide_eq_true (by rw [hd]; exact hm1.symm),
            (ih s').mpr ⟨xs, b, hrest, hm2⟩⟩

lemma ciOccurs_iff (t : List Char) : ∀ s : List Char,
    (ciOccurs t s = true ↔
      ∃ p a b, s = p ++ (a ++ b) ∧ a.map asciiLower = t.map asciiLower) := by
  intro s
  induction s with
  | nil =>
    constructor
    · intro h
      cases t with
      | nil => exact ⟨[], [], [], rfl, rfl⟩
      | cons x xs => simp [ciOccurs] at h
    · rintro ⟨p, a, b, hnil, hmap⟩
      rcases List.append_eq_nil.mp hnil.symm with ⟨rfl, hab⟩
      rcases List.append_eq_nil.mp hab with ⟨rfl, rfl⟩
      cases t with
      | nil => rfl
      | cons x xs => simp at hmap
  | cons c s' ih =>
    rw [show ciOccurs t (c :: s') = (ciStartsWith t (c :: s') || ciOccurs t s')
        from rfl,
      Bool.or_eq_true]
    constructor
    · rintro (h | h)
      · obtain ⟨a, b, hsplit, hmap⟩ := (ciStartsWith_iff t _).mp h
        exact ⟨[], a, b, by simpa using hsplit, hmap⟩
      · obtain ⟨p, a, b, hsplit, hmap⟩ := ih.mp h
        exact ⟨c :: p, a, b, by rw [hsplit]; rfl, hmap⟩
    · rintro ⟨p, a, b, hsplit, hmap⟩
      cases p with
      | nil =>
        left
        exact (ciStartsWith_iff t _).mpr ⟨a, b, by simpa using hsplit, hmap⟩
      | cons x xs =>
        right
        rw [List.cons_append] at hsplit
        injection hsplit with hx hrest
        exact ih.mpr ⟨xs, a, b, hrest, hmap⟩

lemma ciOccurs_nil_term : ∀ s : List Char, ciOccurs [] s = true := by
  intro s
  cases s with
  | nil => rfl
  | cons c s' => rfl

/-- For a term with no `LIKE` wildcard characters, matching the pattern
`'%' + term + '%'` is exactly case-insensitive substring containment. -/
lemma like_eq_ciOccurs (t s : List Char)
    (ht : ∀ c ∈ t, c ≠ '%' ∧ c ≠ '_') :
    likeMatch ('%' :: (t ++ ['%'])) s = ciOccurs t s := by
  apply bool_eq_of_true_iff
  rw [likeMatch_pct_iff, ciOccurs_iff]
  constructor
  · rintro ⟨s1, s2, rfl, h2⟩
    obtain ⟨a, b, rfl, hmap, _⟩ := (likeMatch_lit_iff t ht ['%'] s2).mp h2
    exact ⟨s1, a, b, rfl, hmap⟩
  · rintro ⟨p, a, b, rfl, hmap⟩
    exact ⟨p, a ++ b, rfl, (likeMatch_lit_iff t ht ['%'] (a ++ b)).mpr
      ⟨a, b, rfl, hmap, likeMatch_pct_end b⟩⟩

/-! ## Lemmas about the stable descending sort -/

lemma mem_insertByCreated (x y : SpriteRow) (l : List SpriteRow) :
    y ∈ insertByCreated x l ↔ y = x ∨ y ∈ l := by
  induction l with
  | nil => simp [insertByCreated]
  | cons z zs ih =>
    by_cases hc : z.sprite.created_at ≤ x.sprite.created_at
    · simp only [insertByCreated, if_pos hc, List.mem_cons]
    · simp only [insertByCreated, if_neg hc, List.mem_cons, ih]
      tauto

lemma perm_insertByCreated (x : SpriteRow) (l : List SpriteRow) :
    (insertByCreated x l).Perm (x :: l) := by
  induction l with
  | nil => exact List.Perm.refl _
  | cons z zs ih =>
    by_cases hc : z.sprite.created_at ≤ x.sprite.created_at
    · simp only [insertByCreated, if_pos hc]
      exact List.Perm.refl _
    · simp only [insertByCreated, if_neg hc]
      exact (List.Perm.cons z ih).trans (List.Perm.swap x z zs)

lemma perm_sortByCreatedDesc (l : List SpriteRow) :
    (sortByCreatedDesc l).Perm l := by
  induction l with
  | nil => exact List.Perm.refl _
  | cons x xs ih =>
    exact (perm_insertByCreated x (sortByCreatedDesc xs)).trans
      (List.Perm.cons x ih)

lemma pairwise_insertByCreated (x : SpriteRow) (l : List SpriteRow)
    (h : l.Pairwise (fun a b => b.sprite.created_at ≤ a.sprite.created_at)) :
    (insertByCreated x l).Pairwise
      (fun a b => b.sprite.created_at ≤ a.sprite.created_at) := by
  induction l with
  | nil => simp [insertByCreated]
  | cons z zs ih =>
    rw [List.pairwise_cons] at h
    by_cases hc : z.sprite.created_at ≤ x.sprite.created_at
    · simp only [insertByCreated, if_pos hc]
      rw [List.pairwise_cons]
      refine ⟨?_, List.pairwise_cons.mpr h⟩
      intro y hy
      rcases List.mem_cons.mp hy with rfl | hy'
      · exact hc
      · exact le_trans (h.1 y hy') hc
    · simp only [insertByCreated, if_neg hc]
      rw [List.pairwise_cons]
      refine ⟨?_, ih h.2⟩
      intro y hy
      rcases (mem_insertByCreated x y zs).mp hy with rfl | hy'
      · omega
      · exact h.1 y hy'

lemma sorted_sortByCreatedDesc (l : List SpriteRow) :
    (sortByCreatedDesc l).Pairwise
      (fun a b => b.sprite.created_at ≤ a.sprite.created_at) := by
  induction l with
  | nil => exact List.Pairwise.nil
  | cons x xs ih => exact pairwise_insertByCreated x _ ih

lemma filter_insertByCreated (t : Nat) (x : SpriteRow) (l : List SpriteRow) :
    (insertByCreated x l).filter (fun r => r.sprite.created_at == t) =
      (x :: l).filter (fun r => r.sprite.created_at == t) := by
  induction l with
  | nil => rfl
  | cons z zs ih =>
    by_cases hc : z.sprite.created_at ≤ x.sprite.created_at
    · simp only [insertByCreated, if_pos hc]
    · have hord : x.sprite.created_at < z.sprite.created_at := Nat.lt_of_not_le hc
      simp only [insertByCreated, if_neg hc]
      by_cases hzt : z.sprite.created_at = t
      · have hxt : ¬ x.sprite.created_at = t := by omega
        simp [List.filter_cons, hzt, hxt, ih]
      · by_cases hxt : x.sprite.created_at = t
        · simp [List.filter_cons, hzt, hxt, ih]
        · simp [List.filter_cons, hzt, hxt, ih]

lemma filter_sortByCreatedDesc (t : Nat) (l : List SpriteRow) :
    (sortByCreatedDesc l).filter (fun r => r.sprite.created_at == t) =
      l.filter (fun r => r.sprite.created_at == t) := by
  induction l with
  | nil => rfl
  | cons x xs ih =>
    show (insertByCreated x (sortByCreatedDesc xs)).filter _ = _
    rw [filter_insertByCreated, List.filter_cons, List.filter_cons, ih]

/-! ## Lemmas about the join and filters -/

lemma map_filter_comm {α β : Type} (f : α → β) (q : β → Bool) (l : List α) :
    (l.filter (fun a => q (f a))).map f = (l.map f).filter q := by
  induction l with
  | nil => rfl
  | cons a as ih =>
    by_cases hq : q (f a)
    · simp [List.filter_cons, hq, ih]
    · simp [List.filter_cons, hq, ih]

lemma filter_filter_and {α : Type} (p q : α → Bool) (l : List α) :
    (l.filter p).filter q = l.filter (fun a => p a && q a) := by
  induction l with
  | nil => rfl
  | cons a as ih =>
    by_cases hp : p a
    · by_cases hq : q a
      · simp [List.filter_cons, hp, hq, ih]
      · simp [List.filter_cons, hp, hq, ih]
    · simp [List.filter_cons, hp, ih]

lemma joinRows_aux (users : List User) : ∀ l : List Sprite,
    (∀ sp ∈ l, ∃ u ∈ users, u.id = sp.seller_id) →
    ((l.filterMap (fun sp =>
        (users.find? (fun u => u.id == sp.seller_id)).map
          (fun u => (⟨sp, u.username⟩ : SpriteRow)))).map
      (fun r => r.sprite)) = l := by
  intro l
  induction l with
  | nil => intro _; rfl
  | cons sp l ih =>
    intro h
    obtain ⟨u, hu, huid⟩ := h sp (List.mem_cons_self sp l)
    rcases hfind : users.find? (fun u' => u'.id == sp.seller_id) with _ | u'
    · exfalso
      exact List.find?_eq_none.mp hfind u hu (by simp [huid])
    · rw [List.filterMap_cons]
      simp only [hfind, Option.map_some']
      rw [List.map_cons, ih (fun x hx => h x (List.mem_cons_of_mem sp hx))]

lemma joinRows_map_sprite (db : DB)
    (href : ∀ sp ∈ db.sprites, ∃ u ∈ db.users, u.id = sp.seller_id) :
    (joinRows db).map (fun r => r.sprite) = db.sprites :=
  joinRows_aux db.users db.sprites href

/-- C4 counterexample: the claim quantifies over every search term, but the
term is spliced unescaped into a `LIKE` pattern, so `'%'` and `'_'` act as
wildcards.  In `st0` the search for `"_"` returns the listing named
`"Hero"`, although `"Hero"` does not contain `"_"` as a (case-insensitive)
substring. -/
theorem C4_counterexample :
    (home "_" st0).1.map (fun r => r.sprite.name) = ["Hero"] ∧
    specContainsCI "_" "Hero" = false :=
  ⟨by decide, by decide⟩

/-- C4 (amended): for every search term containing no `LIKE` wildcard
character (`'%'` or `'_'`), the home query returns exactly the listings
whose name contains the term as a case-insensitive substring (all listings
when the term is empty), ordered by `created_at` descending, with listings
sharing a `created_at` value kept in insertion order. -/
theorem C4_search_semantics_ordering (term : String) (st : ServerState)
    (hwf : st.db.wf)
    (hterm : ∀ c ∈ term.toList, c ≠ '%' ∧ c ≠ '_') :
    ((home term st).1.map (fun r => r.sprite)).Perm
      (st.db.sprites.filter (fun sp => specContainsCI term sp.name)) ∧
    (term = "" →
      ((home term st).1.map (fun r => r.sprite)).Perm st.db.sprites) ∧
    ((home term st).1.Pairwise
      (fun a b => b.sprite.created_at ≤ a.sprite.created_at)) ∧
    (∀ t : Nat,
      (((home term st).1.filter (fun r => r.sprite.created_at == t)).map
        (fun r => r.sprite)) =
      st.db.sprites.filter
        (fun sp => specContainsCI term sp.name && (sp.created_at == t))) := by
  obtain ⟨hndU, hndName, hndS, href, hltU, hltS⟩ := hwf
  have hjoin := joinRows_map_sprite st.db href
  have hfilter_eq : (joinRows st.db).filter
        (fun r => likeMatch (likePattern term) r.sprite.name.toList) =
      (joinRows st.db).filter
        (fun r => specContainsCI term r.sprite.name) :=
    List.filter_congr (fun r _ =>
      like_eq_ciOccurs term.toList r.sprite.name.toList hterm)
  have hrows : (home term st).1 =
      sortByCreatedDesc ((joinRows st.db).filter
        (fun r => specContainsCI term r.sprite.name)) := by
    show searchRows st.db term = _
    unfold searchRows
    rw [hfilter_eq]
  have hmapfilter : (((joinRows st.db).filter
        (fun r => specContainsCI term r.sprite.name)).map
      (fun r => r.sprite)) =
      st.db.sprites.filter (fun sp => specContainsCI term sp.name) := by
    have h1 := map_filter_comm (fun r : SpriteRow => r.sprite)
      (fun sp => specContainsCI term sp.name) (joinRows st.db)
    have h2 : ((joinRows st.db).map (fun r => r.sprite)).filter
        (fun sp => specContainsCI term sp.name) =
        st.db.sprites.filter (fun sp => specContainsCI term sp.name) := by
      rw [hjoin]
    exact h1.trans h2
  have hperm : ((home term st).1.map (fun r => r.sprite)).Perm
      (st.db.sprites.filter (fun sp => specContainsCI term sp.name)) := by
    rw [hrows, ← hmapfilter]
    exact (perm_sortByCreatedDesc _).map _
  refine ⟨hperm, ?_, ?_, ?_⟩
  · intro h0
    subst h0
    have hall : st.db.sprites.filter
        (fun sp => specContainsCI "" sp.name) = st.db.sprites :=
      filter_all_true _ _ (fun sp _ => ciOccurs_nil_term sp.name.toList)
    exact hall ▸ hperm
  · rw [hrows]
    exact sorted_sortByCreatedDesc _
  · intro t
    rw [hrows, filter_sortByCreatedDesc, filter_filter_and]
    have h1 := map_filter_comm (fun r : SpriteRow => r.sprite)
      (fun sp => specContainsCI term sp.name && (sp.created_at == t))
      (joinRows st.db)
    have h2 : ((joinRows st.db).map (fun r => r.sprite)).filter
        (fun sp => specContainsCI term sp.name && (sp.created_at == t)) =
        st.db.sprites.filter
          (fun sp => specContainsCI term sp.name && (sp.created_at == t)) := by
      rw [hjoin]
    exact h1.trans h2

/-- C4 witness: searching `"her"` in `st0` (scenario 5 of the spec). -/
theorem C4_search_semantics_ordering_witness :
    ((home "her" st0).1.map (fun r => r.sprite)).Perm
      (st0.db.sprites.filter (fun sp => specContainsCI "her" sp.name)) :=
  (C4_search_semantics_ordering "her" st0 (by decide) (by decide)).1

end SpriteShop
